import Mathlib

/-!
Verification development for `clean_backup.py`, a MySQL backup-then-purge
script. The script (remote mode only, as written):

1. builds a remote shell script (`set -e`) that makes a working directory,
   dumps the full database, dumps each configured table with an age
   predicate, and zips the working directory;
2. copies the script to the remote host over SFTP and runs it;
3. on script success, pulls the resulting zip to local storage;
4. on pull success, connects to the database and purges old rows from each
   table in batches of `BATCH_SIZE`, each table's purge guarded by its own
   try/except;
5. finally attempts to remove the remote working directory, zip and script.

The embedding below models:
- the retention configuration and its lookup (`RETENTION.get(table, DEFAULT)`);
- `purge_old_rows` as a batched deletion loop over a list of row
  creation times, in two variants: a fixed-cutoff loop, and the loop the
  SQL actually runs, where `NOW()` is re-evaluated at each batch;
- `run_cmd`, `run_remote_cmd_paramiko`, `scp_from_remote_paramiko` and the
  script-upload block of `main` as event traces over injected failure
  outcomes;
- `main` as a trace-producing function over an environment of external
  outcomes, mirroring its control flow.
-/

/-! ## Configuration (`clean_backup.py` lines 33-53) -/

/-- The table list `TABLES` from the script. -/
def TABLES : List String :=
  [ "ismart_create_order"
  , "customer_input_details"
  , "transaction_details"
  , "merchant_request4customer"
  , "status_change_logs_model"
  , "merchant_balance_sheet"
  , "user_details"
  , "callbacklog"
  , "pginput_from_customer_details"
  , "transaction_details_log" ]

/-- The `RETENTION` override dictionary, as an association list. -/
def RETENTION : List (String × Int) :=
  [("transaction_details_log", 1), ("user_details", 60)]

/-- `DEFAULT_RETENTION_DAYS = 7`. -/
def DEFAULT_RETENTION_DAYS : Int := 7

/-- `BATCH_SIZE = 1000`. -/
def BATCH_SIZE : Nat := 1000

/-- Python's `cfg.get(table, dflt)` on an association list: the first
binding for `table` if present, else `dflt`. This is the whole retention
resolution mechanism of the script (`RETENTION.get(table,
DEFAULT_RETENTION_DAYS)` at lines 214 and 277); no validation of the
resolved value occurs anywhere in the script. -/
def resolveRetention (cfg : List (String × Int)) (dflt : Int) (table : String) : Int :=
  match cfg.find? (fun p => p.1 == table) with
  | some p => p.2
  | none => dflt

/-- The script's concrete resolution call. -/
def retentionGet (table : String) : Int :=
  resolveRetention RETENTION DEFAULT_RETENTION_DAYS table

/-! ## Batched purge (`purge_old_rows`, lines 129-145)

A table is a list of row creation times (integers). A row is eligible for
deletion under cutoff `c` when `created < c` (the SQL predicate
`created < DATE_SUB(NOW(), INTERVAL days DAY)` with `c = now - days`).
`DELETE ... LIMIT k` removes up to `k` eligible rows; we scan the list
left to right. -/

/-- Number of rows eligible under cutoff `c`. -/
def countEligible (rows : List Int) (c : Int) : Nat :=
  rows.countP (fun r => decide (r < c))

/-- One `DELETE ... WHERE created < c ... LIMIT k`: removes up to `k`
eligible rows scanning left to right, returning the remaining rows and the
`rowcount` of the statement. -/
def deleteUpTo (c : Int) : List Int → Nat → List Int × Nat
  | [], _ => ([], 0)
  | r :: rs, k =>
    if r < c then
      match k with
      | 0 => (r :: rs, 0)
      | Nat.succ k0 =>
        let p := deleteUpTo c rs k0
        (p.1, p.2 + 1)
    else
      let p := deleteUpTo c rs k
      (r :: p.1, p.2)

/-- The `while True` loop of `purge_old_rows` with a cutoff that stays
fixed across batches: delete a batch; if its rowcount is 0, stop;
otherwise record the batch and continue. Returns the remaining rows and
the list of (nonzero) per-batch rowcounts; `total_deleted` is their sum.
`fuel` bounds the number of iterations; `purgeOldRows` supplies
`rows.length + 1`, which is shown sufficient (the loop exits through a
zero batch, leaving no eligible rows: see the C7 theorem). -/
def purgeLoopAux (c : Int) (bs : Nat) : Nat → List Int → List Int × List Nat
  | 0, rows => (rows, [])
  | Nat.succ fuel, rows =>
    let b := deleteUpTo c rows bs
    if b.2 = 0 then (b.1, [])
    else
      let p := purgeLoopAux c bs fuel b.1
      (p.1, b.2 :: p.2)

/-- `purge_old_rows` under a fixed cutoff. -/
def purgeOldRows (rows : List Int) (c : Int) (bs : Nat) : List Int × List Nat :=
  purgeLoopAux c bs (rows.length + 1) rows

/-- Run at most `n` batches of the fixed-cutoff loop, modelling a purge
interrupted after `n` batches. -/
def purgeSteps (c : Int) (bs : Nat) : Nat → List Int → List Int × List Nat
  | 0, rows => (rows, [])
  | Nat.succ n, rows =>
    let b := deleteUpTo c rows bs
    if b.2 = 0 then (b.1, [])
    else
      let p := purgeSteps c bs n b.1
      (p.1, b.2 :: p.2)

/-- The loop as the SQL actually executes it: the `DELETE` statement at
line 136 contains `DATE_SUB(NOW(), INTERVAL days DAY)`, so batch `i` uses
cutoff `now i - days`, where `now` is the database clock read at batch
`i` (nondecreasing in reality; the loop sleeps between batches). -/
def purgeDriftAux (now : Nat → Int) (days : Int) (bs : Nat) : Nat → Nat → List Int → List Int × List Nat
  | 0, _, rows => (rows, [])
  | Nat.succ fuel, i, rows =>
    let b := deleteUpTo (now i - days) rows bs
    if b.2 = 0 then (b.1, [])
    else
      let p := purgeDriftAux now days bs fuel (i + 1) b.1
      (p.1, b.2 :: p.2)

/-- `purge_old_rows` with the per-batch `NOW()` re-evaluation of the
source. -/
def purgeDrift (rows : List Int) (now : Nat → Int) (days : Int) (bs : Nat) : List Int × List Nat :=
  purgeDriftAux now days bs (rows.length + 1) 0 rows

/-! ## `run_cmd` (lines 72-83)

`run_cmd(argv, output_file)` opens `output_file` for writing (creating or
truncating it) with `output_file.open("w")`, then runs the command with
stdout redirected into it. On `CalledProcessError` it logs and re-raises;
no branch unlinks the file. We model it as the sequence of filesystem and
process events it performs. -/

/-- Events of `run_cmd`: open the output file for writing, run the
subprocess (with its success), remove the file, re-raise the error. -/
inductive FsEv where
  | openWrite : FsEv
  | procRun : Bool → FsEv
  | unlink : FsEv
  | raised : FsEv
deriving DecidableEq, Repr

/-- The event trace of `run_cmd` when the subprocess succeeds (`ok =
true`) or exits nonzero (`ok = false`). -/
def runCmdTrace (ok : Bool) : List FsEv :=
  [FsEv.openWrite, FsEv.procRun ok] ++ (if ok then [] else [FsEv.raised])

/-! ## Paramiko blocks (lines 148-191 and 225-241)

`run_remote_cmd_paramiko` and `scp_from_remote_paramiko` each build an
`SSHClient`, then inside `try: connect; work...` with `finally:
ssh.close()`. `ssh.close()` tears down the transport and every channel
over it (including an SFTP session whose own `close()` was skipped by an
exception). The script-upload block in `main` (lines 229-241) has the same
shape with `sftp.put`. We model each as a trace over injected outcomes of
the fallible steps, one trace per exit path. -/

/-- Events of one remote operation sequence. -/
inductive SshEv where
  | connect : Bool → SshEv
  | execCmd : Bool → SshEv
  | exitStatus : Nat → SshEv
  | sftpOpen : Bool → SshEv
  | sftpGet : Bool → SshEv
  | sftpPut : Bool → SshEv
  | sftpClose : SshEv
  | sshClose : SshEv
deriving DecidableEq, Repr

/-- Outcomes of the fallible steps of a remote operation sequence. -/
structure SshOutcome where
  connectOk : Bool
  execOk : Bool
  exitCode : Nat
  sftpOpenOk : Bool
  getOk : Bool
  putOk : Bool

/-- Trace of `run_remote_cmd_paramiko` (lines 148-171): connect, run the
command, read streams, check the exit status (nonzero raises). The
`finally` clause closes the client on every path. Returns the trace and
whether the call raised. -/
def runRemoteCmdTrace (o : SshOutcome) : List SshEv × Bool :=
  if o.connectOk = false then ([SshEv.connect false, SshEv.sshClose], true)
  else if o.execOk = false then
    ([SshEv.connect true, SshEv.execCmd false, SshEv.sshClose], true)
  else if o.exitCode ≠ 0 then
    ([SshEv.connect true, SshEv.execCmd true, SshEv.exitStatus o.exitCode, SshEv.sshClose], true)
  else
    ([SshEv.connect true, SshEv.execCmd true, SshEv.exitStatus 0, SshEv.sshClose], false)

/-- Trace of `scp_from_remote_paramiko` (lines 174-191): connect, open
SFTP, `get`, close SFTP, with `finally: ssh.close()`. When `get` raises,
`sftp.close()` is skipped but the `finally` still closes the client (and
with it the SFTP channel). -/
def scpFromRemoteTrace (o : SshOutcome) : List SshEv × Bool :=
  if o.connectOk = false then ([SshEv.connect false, SshEv.sshClose], true)
  else if o.sftpOpenOk = false then
    ([SshEv.connect true, SshEv.sftpOpen false, SshEv.sshClose], true)
  else if o.getOk = false then
    ([SshEv.connect true, SshEv.sftpOpen true, SshEv.sftpGet false, SshEv.sshClose], true)
  else
    ([SshEv.connect true, SshEv.sftpOpen true, SshEv.sftpGet true, SshEv.sftpClose,
      SshEv.sshClose], false)

/-- Trace of the script-upload block of `main` (lines 229-241): same shape
as the scp helper, with `sftp.put`. -/
def putScriptTrace (o : SshOutcome) : List SshEv × Bool :=
  if o.connectOk = false then ([SshEv.connect false, SshEv.sshClose], true)
  else if o.sftpOpenOk = false then
    ([SshEv.connect true, SshEv.sftpOpen false, SshEv.sshClose], true)
  else if o.putOk = false then
    ([SshEv.connect true, SshEv.sftpOpen true, SshEv.sftpPut false, SshEv.sshClose], true)
  else
    ([SshEv.connect true, SshEv.sftpOpen true, SshEv.sftpPut true, SshEv.sftpClose,
      SshEv.sshClose], false)

/-! ## `main` (lines 195-297)

`main` is modelled as a trace of observable events, driven by an
environment of outcomes of the external effects: the script upload, the
remote commands inside the generated script (which runs under `set -e`,
so it stops at the first failing command and succeeds exactly when every
command succeeds), the zip pull (with the size of the pulled file, which
the code never inspects), the database connection, each table's purge,
and the remote cleanup command. -/

/-- Scope of a dump command in the remote script. -/
inductive Scope where
  | full : Scope
  | table : String → Scope
deriving DecidableEq, Repr

/-- Observable events of one run of `main`. -/
inductive Ev where
  | putScript : Bool → Ev
  | remoteDump : Scope → Bool → Ev
  | remoteZip : Bool → Ev
  | scriptRun : Bool → Ev
  | pullZip : Bool → Ev
  | dbConnect : Bool → Ev
  | purgeTable : String → Ev
  | purgeFailed : String → Ev
  | cleanupRun : Bool → Ev
deriving DecidableEq, Repr

/-- Outcomes of the external effects of one run. `pulledSize` is the size
in bytes of the local file produced by a successful pull; the script
never reads it. -/
structure Env where
  putOk : Bool
  sshOk : Bool
  fullDumpOk : Bool
  tableDumpOk : String → Bool
  zipOk : Bool
  pullOk : Bool
  pulledSize : Nat
  dbConnectOk : Bool
  purgeOk : String → Bool
  cleanupOk : Bool

/-- The per-table `mysqldump` lines of the generated script, executed in
order under `set -e`: stop at the first failure. Returns the dump events
and whether all table dumps succeeded. -/
def scriptTableDumps (env : Env) : List String → List Ev × Bool
  | [] => ([], true)
  | t :: ts =>
    if env.tableDumpOk t then
      let p := scriptTableDumps env ts
      (Ev.remoteDump (Scope.table t) true :: p.1, p.2)
    else ([Ev.remoteDump (Scope.table t) false], false)

/-- Execution of the whole generated script (lines 208-217): full dump,
then one dump per table of `TABLES`, then the zip step, aborting at the
first failure (`set -e`). Succeeds exactly when every command succeeded. -/
def runRemoteScript (env : Env) : List Ev × Bool :=
  if env.fullDumpOk = false then ([Ev.remoteDump Scope.full false], false)
  else
    let p := scriptTableDumps env TABLES
    if p.2 = false then (Ev.remoteDump Scope.full true :: p.1, false)
    else (Ev.remoteDump Scope.full true :: p.1 ++ [Ev.remoteZip env.zipOk], env.zipOk)

/-- Step 4 of `main` (lines 245-251): run the script remotely via
`run_remote_cmd_paramiko`; any exception (connection failure or nonzero
exit) leaves `backup_success = False`. -/
def backupPhase (env : Env) : List Ev × Bool :=
  if env.sshOk = false then ([Ev.scriptRun false], false)
  else
    let p := runRemoteScript env
    (p.1 ++ [Ev.scriptRun p.2], p.2)

/-- Step 6 of `main` (lines 276-282): the purge loop over `TABLES`, each
table's `purge_old_rows` call wrapped in its own try/except, so a failed
purge is logged and the loop continues. -/
def purgeEvents (env : Env) : List String → List Ev
  | [] => []
  | t :: ts =>
    (Ev.purgeTable t :: (if env.purgeOk t then [] else [Ev.purgeFailed t]))
      ++ purgeEvents env ts

/-- Step 6 of `main` (lines 266-287): connect to the database and purge
every table; a connection failure is caught by the surrounding try/except
and skips the loop entirely. -/
def purgePhase (env : Env) : List Ev :=
  if env.dbConnectOk then Ev.dbConnect true :: purgeEvents env TABLES
  else [Ev.dbConnect false]

/-- The trace of one run of `main`:
- a failed script upload re-raises out of `main` (line 239);
- `backup_success = False` returns before the pull (lines 253-255);
- a failed pull returns before purge and cleanup (lines 257-264);
- otherwise the purge phase runs (its failures all caught), and remote
  cleanup is attempted unconditionally afterwards (lines 289-297). -/
def mainRun (env : Env) : List Ev :=
  if env.putOk = false then [Ev.putScript false]
  else
    let b := backupPhase env
    let pre := Ev.putScript true :: b.1
    if b.2 = false then pre
    else if env.pullOk = false then pre ++ [Ev.pullZip false]
    else pre ++ [Ev.pullZip true] ++ purgePhase env ++ [Ev.cleanupRun env.cleanupOk]

/-! ## Lemmas about a single deletion batch -/

theorem deleteUpTo_snd (c : Int) (rows : List Int) :
    ∀ k : Nat, (deleteUpTo c rows k).2 = min k (countEligible rows c) := by
  induction rows with
  | nil => intro k; simp [deleteUpTo, countEligible]
  | cons r rs ih =>
    intro k
    by_cases h : r < c
    · cases k with
      | zero => simp [deleteUpTo, h, countEligible]
      | succ k0 =>
        simp only [deleteUpTo, if_pos h]
        rw [ih k0]
        simp [countEligible, List.countP_cons, h]
        omega
    · simp only [deleteUpTo, if_neg h]
      rw [ih k]
      simp [countEligible, List.countP_cons, h]

theorem deleteUpTo_length (c : Int) (rows : List Int) :
    ∀ k : Nat, (deleteUpTo c rows k).1.length + (deleteUpTo c rows k).2 = rows.length := by
  induction rows with
  | nil => intro k; simp [deleteUpTo]
  | cons r rs ih =>
    intro k
    by_cases h : r < c
    · cases k with
      | zero => simp [deleteUpTo, h]
      | succ k0 =>
        simp only [deleteUpTo, if_pos h, List.length_cons]
        have := ih k0
        omega
    · simp only [deleteUpTo, if_neg h, List.length_cons]
      have := ih k
      omega

theorem deleteUpTo_rest_eligible (c : Int) (rows : List Int) :
    ∀ k : Nat, countEligible (deleteUpTo c rows k).1 c
      = countEligible rows c - (deleteUpTo c rows k).2 := by
  induction rows with
  | nil => intro k; simp [deleteUpTo]
  | cons r rs ih =>
    intro k
    by_cases h : r < c
    · cases k with
      | zero => simp [deleteUpTo, h]
      | succ k0 =>
        simp only [deleteUpTo, if_pos h]
        rw [ih k0]
        simp [countEligible, List.countP_cons, h]
    · simp only [deleteUpTo, if_neg h]
      have hr := ih k
      simp only [countEligible, List.countP_cons] at hr ⊢
      simp [h]
      omega

theorem deleteUpTo_keeps_ineligible (c : Int) (rows : List Int) :
    ∀ k : Nat, (deleteUpTo c rows k).1.filter (fun r => !decide (r < c))
      = rows.filter (fun r => !decide (r < c)) := by
  induction rows with
  | nil => intro k; simp [deleteUpTo]
  | cons r rs ih =>
    intro k
    by_cases h : r < c
    · cases k with
      | zero => simp [deleteUpTo, h]
      | succ k0 =>
        simp only [deleteUpTo, if_pos h]
        rw [ih k0]
        simp [List.filter_cons, h]
    · simp only [deleteUpTo, if_neg h]
      simp [List.filter_cons, h, ih k]

theorem deleteUpTo_zero_id (c : Int) (rows : List Int) :
    ∀ k : Nat, (deleteUpTo c rows k).2 = 0 → (deleteUpTo c rows k).1 = rows := by
  induction rows with
  | nil => intro k _; simp [deleteUpTo]
  | cons r rs ih =>
    intro k hz
    by_cases h : r < c
    · cases k with
      | zero => simp [deleteUpTo, h]
      | succ k0 => simp [deleteUpTo, h] at hz
    · simp only [deleteUpTo, if_neg h] at hz ⊢
      rw [ih k hz]

/-! ## Lemmas about the purge loop -/

theorem filter_not_of_countP_zero (p : Int → Bool) (l : List Int)
    (h : l.countP p = 0) : l.filter (fun a => !p a) = l := by
  refine List.filter_eq_self.mpr ?_
  intro a ha
  have := List.countP_eq_zero.mp h a ha
  simp [this]

theorem countP_filter_not_self (p : Int → Bool) (l : List Int) :
    (l.filter (fun a => !p a)).countP p = 0 := by
  refine List.countP_eq_zero.mpr ?_
  intro a ha
  have := (List.mem_filter.mp ha).2
  simp at this
  simp [this]

theorem purgeLoopAux_spec (c : Int) (bs : Nat) (hbs : 0 < bs) :
    ∀ (fuel : Nat) (rows : List Int), countEligible rows c < fuel →
      (purgeLoopAux c bs fuel rows).2.sum = countEligible rows c
      ∧ (purgeLoopAux c bs fuel rows).1 = rows.filter (fun r => !decide (r < c)) := by
  intro fuel
  induction fuel with
  | zero => intro rows h; omega
  | succ f ih =>
    intro rows hlt
    have hd := deleteUpTo_snd c rows bs
    by_cases hz : (deleteUpTo c rows bs).2 = 0
    · have hc : countEligible rows c = 0 := by omega
      simp only [purgeLoopAux, hz, if_pos]
      refine ⟨by simp [hc], ?_⟩
      rw [deleteUpTo_zero_id c rows bs hz]
      exact (filter_not_of_countP_zero _ rows hc).symm
    · have hrest := deleteUpTo_rest_eligible c rows bs
      have hlt2 : countEligible (deleteUpTo c rows bs).1 c < f := by omega
      obtain ⟨ihs, ihr⟩ := ih (deleteUpTo c rows bs).1 hlt2
      simp only [purgeLoopAux, hz, if_neg, if_false]
      constructor
      · simp only [List.sum_cons, ihs, hrest]
        omega
      · rw [ihr, deleteUpTo_keeps_ineligible]

theorem purgeSteps_eligible (c : Int) (bs : Nat) :
    ∀ (n : Nat) (rows : List Int),
      countEligible (purgeSteps c bs n rows).1 c + (purgeSteps c bs n rows).2.sum
        = countEligible rows c := by
  intro n
  induction n with
  | zero => intro rows; simp [purgeSteps]
  | succ m ih =>
    intro rows
    have hd := deleteUpTo_snd c rows bs
    by_cases hz : (deleteUpTo c rows bs).2 = 0
    · simp only [purgeSteps, hz, if_pos]
      rw [deleteUpTo_zero_id c rows bs hz]
      simp
    · have hrest := deleteUpTo_rest_eligible c rows bs
      have := ih (deleteUpTo c rows bs).1
      simp only [purgeSteps, hz, if_neg, if_false, List.sum_cons]
      omega

theorem purgeDriftAux_const (now : Nat → Int) (days : Int) (bs : Nat)
    (h : ∀ i, now i = now 0) :
    ∀ (fuel i : Nat) (rows : List Int),
      purgeDriftAux now days bs fuel i rows = purgeLoopAux (now 0 - days) bs fuel rows := by
  intro fuel
  induction fuel with
  | zero => intro i rows; rfl
  | succ f ih =>
    intro i rows
    simp only [purgeDriftAux, purgeLoopAux, h i]
    by_cases hz : (deleteUpTo (now 0 - days) rows bs).2 = 0
    · simp [hz]
    · simp [hz, ih (i + 1)]

/-- C7: for any positive batch size, the fixed-cutoff purge loop deletes
exactly the eligible rows and terminates: the per-batch rowcounts sum to
the number of eligible rows, the remaining rows are exactly the
ineligible ones (so no eligible row survives and no ineligible row is
deleted), a run with no eligible rows stops at its first zero batch
having deleted nothing, and resuming after an interruption of any length
deletes exactly the remaining eligible rows (the two phases' rowcounts
sum to the original eligible count, so nothing is double-deleted). -/
theorem purgeOldRows_complete (rows : List Int) (c : Int) (bs : Nat) (hbs : 0 < bs) :
    (purgeOldRows rows c bs).2.sum = countEligible rows c
    ∧ (purgeOldRows rows c bs).1 = rows.filter (fun r => !decide (r < c))
    ∧ countEligible (purgeOldRows rows c bs).1 c = 0
    ∧ (countEligible rows c = 0 → purgeOldRows rows c bs = (rows, []))
    ∧ ∀ n : Nat,
        (purgeSteps c bs n rows).2.sum
          + (purgeOldRows (purgeSteps c bs n rows).1 c bs).2.sum
          = countEligible rows c := by
  have hlen : countEligible rows c < rows.length + 1 := by
    have := List.countP_le_length (fun r => decide (r < c)) (l := rows)
    simp only [countEligible]
    omega
  obtain ⟨hsum, hrest⟩ := purgeLoopAux_spec c bs hbs (rows.length + 1) rows hlen
  refine ⟨hsum, hrest, ?_, ?_, ?_⟩
  · simp only [purgeOldRows]
    rw [hrest]
    exact countP_filter_not_self _ rows
  · intro hc
    have hz : (deleteUpTo c rows bs).2 = 0 := by
      have := deleteUpTo_snd c rows bs
      omega
    simp only [purgeOldRows, purgeLoopAux, hz, if_pos]
    rw [deleteUpTo_zero_id c rows bs hz]
  · intro n
    have hmid := purgeSteps_eligible c bs n rows
    have hlen2 : countEligible (purgeSteps c bs n rows).1 c
        < (purgeSteps c bs n rows).1.length + 1 := by
      have := List.countP_le_length (fun r => decide (r < c))
        (l := (purgeSteps c bs n rows).1)
      simp only [countEligible]
      omega
    obtain ⟨hsum2, _⟩ :=
      purgeLoopAux_spec c bs hbs ((purgeSteps c bs n rows).1.length + 1)
        (purgeSteps c bs n rows).1 hlen2
    simp only [purgeOldRows]
    rw [hsum2]
    omega

/-- Witness for C7 at a concrete table: rows aged 0, 5, 10, 3 under
cutoff 6 with batches of 2; three rows are eligible, the purge deletes
exactly those three, and an interrupted purge resumed after one batch
also totals three. -/
theorem purgeOldRows_complete_witness :
    (0 < 2
    ∧ (purgeOldRows [0, 5, 10, 3] 6 2).2.sum = countEligible [0, 5, 10, 3] 6)
    ∧ (purgeSteps 6 2 1 [0, 5, 10, 3]).2.sum
        + (purgeOldRows (purgeSteps 6 2 1 [0, 5, 10, 3]).1 6 2).2.sum
        = countEligible [0, 5, 10, 3] 6 :=
  ⟨⟨by decide, (purgeOldRows_complete [0, 5, 10, 3] 6 2 (by decide)).1⟩,
   (purgeOldRows_complete [0, 5, 10, 3] 6 2 (by decide)).2.2.2.2 1⟩

/-- A clock for the C3 counterexample: the first batch runs at time 5,
every later batch at time 20. -/
def driftClock : Nat → Int := fun i => if i = 0 then 5 else 20

/-- C3 counterexample: with retention 0 days, batch size 1, rows created
at times 0 and 10, and the clock advancing from 5 to 20 between batches,
the purge deletes 2 rows even though only 1 row was eligible under the
cutoff of the first batch (`now 0 - days = 5`): the second batch used a
different, later cutoff, so the eligible set drifted mid-purge. -/
theorem purgeDrift_cutoff_drifts :
    (purgeDrift [0, 10] driftClock 0 1).2.sum = 2
    ∧ countEligible [0, 10] (driftClock 0 - 0) = 1 := by
  decide

/-- C3 amended: the retention-days value is fixed for the run, but the
cutoff itself is re-evaluated from `NOW()` at every batch; all batches of
a purge use one and the same cutoff exactly when the clock does not
advance between batches, in which case the drifting loop coincides with
the fixed-cutoff loop at cutoff `now 0 - days`. -/
theorem purgeDrift_const_clock (rows : List Int) (now : Nat → Int) (days : Int)
    (bs : Nat) (h : ∀ i, now i = now 0) :
    purgeDrift rows now days bs = purgeOldRows rows (now 0 - days) bs := by
  simp only [purgeDrift, purgeOldRows]
  exact purgeDriftAux_const now days bs h (rows.length + 1) 0 rows

/-- Witness for the amended C3 at a constant clock. -/
theorem purgeDrift_const_clock_witness :
    purgeDrift [0, 3] (fun _ => (9 : Int)) 1 2 = purgeOldRows [0, 3] (9 - 1) 2 :=
  purgeDrift_const_clock [0, 3] (fun _ => (9 : Int)) 1 2 (fun _ => rfl)

/-! ## Retention resolution (C4) -/

/-- C4 counterexample: the resolution mechanism of the script is a bare
dictionary lookup with a default; it performs no validation, so for a
configuration listing a zero retention it simply returns 0 — there is no
`ConfigurationError` anywhere in the script (the name does not occur),
and a non-positive resolved value is passed on to the dump and purge
steps unchanged. -/
theorem resolveRetention_no_validation :
    resolveRetention [("t", 0)] 7 "t" = 0 := by decide

/-- C4 amended: resolution returns the configured per-partition override
when the partition is listed and the process-wide default when it is not;
no validation of the resolved value is performed (a zero, negative or
otherwise invalid configured value is returned as-is, and nothing raises
`ConfigurationError`). -/
theorem resolveRetention_lookup (cfg : List (String × Int)) (dflt : Int) (t : String) :
    (cfg.find? (fun p => p.1 == t) = none → resolveRetention cfg dflt t = dflt)
    ∧ ∀ v : String × Int,
        cfg.find? (fun p => p.1 == t) = some v → resolveRetention cfg dflt t = v.2 := by
  constructor
  · intro h
    simp [resolveRetention, h]
  · intro v h
    simp [resolveRetention, h]

/-- Witness for the amended C4 on the script's own configuration:
`callbacklog` is unlisted and resolves to the default 7; `user_details`
is listed and resolves to its override 60. -/
theorem resolveRetention_lookup_witness :
    resolveRetention RETENTION DEFAULT_RETENTION_DAYS "callbacklog" = 7
    ∧ resolveRetention RETENTION DEFAULT_RETENTION_DAYS "user_details" = 60 :=
  ⟨(resolveRetention_lookup RETENTION DEFAULT_RETENTION_DAYS "callbacklog").1 (by decide),
   (resolveRetention_lookup RETENTION DEFAULT_RETENTION_DAYS "user_details").2
     ("user_details", 60) (by decide)⟩

/-! ## `run_cmd` leaves the output file on failure (C9) -/

/-- C9: `run_cmd` opens the output file for writing (creating it) as its
first action, before the subprocess runs; on a failing command it
re-raises, and no exit path removes the file — so a failed dump leaves an
empty or partially written file at the target path. -/
theorem runCmd_leaves_file (ok : Bool) :
    (runCmdTrace ok).head? = some FsEv.openWrite
    ∧ (runCmdTrace ok)[1]? = some (FsEv.procRun ok)
    ∧ FsEv.unlink ∉ runCmdTrace ok
    ∧ (ok = false → FsEv.raised ∈ runCmdTrace ok) := by
  cases ok <;> simp [runCmdTrace]

/-- Witness for C9 on the failing branch: the command fails, the error is
re-raised, and the output file was created and never unlinked. -/
theorem runCmd_leaves_file_witness :
    FsEv.unlink ∉ runCmdTrace false ∧ FsEv.raised ∈ runCmdTrace false :=
  ⟨(runCmd_leaves_file false).2.2.1, (runCmd_leaves_file false).2.2.2 rfl⟩

/-! ## Remote sessions are always released (C8) -/

/-- C8: each of the three remote operation sequences — the remote command
runner, the archive download, and the script upload — closes its SSH
client as the last event of every exit path, exceptional or not: the
`finally: ssh.close()` runs after a connect failure, a command failure, a
nonzero exit status, an SFTP open failure, and a transfer failure, and
closing the client tears down the transport together with any SFTP
channel whose own close was skipped by the exception. -/
theorem remote_sessions_released (o : SshOutcome) :
    (runRemoteCmdTrace o).1.getLast? = some SshEv.sshClose
    ∧ (scpFromRemoteTrace o).1.getLast? = some SshEv.sshClose
    ∧ (putScriptTrace o).1.getLast? = some SshEv.sshClose := by
  obtain ⟨a, b, e, s, g, p⟩ := o
  by_cases he : e = 0 <;>
    cases a <;> cases b <;> cases s <;> cases g <;> cases p <;>
      simp [runRemoteCmdTrace, scpFromRemoteTrace, putScriptTrace, he]

/-! ## Lemmas about the `main` trace -/

/-- Events that can occur before the purge phase (script upload, remote
script execution, pull). Purge and cleanup events are not among them. -/
def preEv : Ev → Bool
  | Ev.putScript _ => true
  | Ev.remoteDump _ _ => true
  | Ev.remoteZip _ => true
  | Ev.scriptRun _ => true
  | Ev.pullZip _ => true
  | Ev.dbConnect _ => false
  | Ev.purgeTable _ => false
  | Ev.purgeFailed _ => false
  | Ev.cleanupRun _ => false

theorem scriptTableDumps_preEv (env : Env) :
    ∀ ts : List String, ∀ e ∈ (scriptTableDumps env ts).1, preEv e = true := by
  intro ts
  induction ts with
  | nil => simp [scriptTableDumps]
  | cons t ts ih =>
    intro e he
    by_cases h : env.tableDumpOk t
    · simp only [scriptTableDumps, if_pos h, List.mem_cons] at he
      rcases he with rfl | he
      · rfl
      · exact ih e he
    · simp only [scriptTableDumps, if_neg h, List.mem_singleton] at he
      subst he
      rfl

theorem runRemoteScript_preEv (env : Env) :
    ∀ e ∈ (runRemoteScript env).1, preEv e = true := by
  intro e he
  by_cases hf : env.fullDumpOk = false
  · have hshape : (runRemoteScript env).1 = [Ev.remoteDump Scope.full false] := by
      simp [runRemoteScript, hf]
    rw [hshape] at he
    rcases List.mem_singleton.mp he with rfl
    rfl
  · by_cases hp : (scriptTableDumps env TABLES).2 = false
    · have hshape : (runRemoteScript env).1
          = Ev.remoteDump Scope.full true :: (scriptTableDumps env TABLES).1 := by
        simp [runRemoteScript, hf, hp]
      rw [hshape] at he
      rcases List.mem_cons.mp he with rfl | he2
      · rfl
      · exact scriptTableDumps_preEv env TABLES e he2
    · have hshape : (runRemoteScript env).1
          = Ev.remoteDump Scope.full true
              :: (scriptTableDumps env TABLES).1 ++ [Ev.remoteZip env.zipOk] := by
        simp [runRemoteScript, hf, hp]
      rw [hshape] at he
      rcases List.mem_cons.mp he with rfl | he2
      · rfl
      rcases List.mem_append.mp he2 with he3 | he4
      · exact scriptTableDumps_preEv env TABLES e he3
      · rcases List.mem_singleton.mp he4 with rfl
        rfl

theorem backupPhase_preEv (env : Env) :
    ∀ e ∈ (backupPhase env).1, preEv e = true := by
  intro e he
  by_cases hs : env.sshOk = false
  · have hshape : (backupPhase env).1 = [Ev.scriptRun false] := by
      simp [backupPhase, hs]
    rw [hshape] at he
    rcases List.mem_singleton.mp he with rfl
    rfl
  · have hshape : (backupPhase env).1
        = (runRemoteScript env).1 ++ [Ev.scriptRun (runRemoteScript env).2] := by
      simp [backupPhase, hs]
    rw [hshape] at he
    rcases List.mem_append.mp he with he2 | he3
    · exact runRemoteScript_preEv env e he2
    · rcases List.mem_singleton.mp he3 with rfl
      rfl

theorem scriptTableDumps_ok_iff (env : Env) :
    ∀ ts : List String,
      (scriptTableDumps env ts).2 = true ↔ ∀ t ∈ ts, env.tableDumpOk t = true := by
  intro ts
  induction ts with
  | nil => simp [scriptTableDumps]
  | cons t ts ih =>
    by_cases h : env.tableDumpOk t <;> simp [scriptTableDumps, h, ih]

theorem scriptTableDumps_ok_mem (env : Env) :
    ∀ ts : List String, (scriptTableDumps env ts).2 = true →
      ∀ t ∈ ts, Ev.remoteDump (Scope.table t) true ∈ (scriptTableDumps env ts).1 := by
  intro ts
  induction ts with
  | nil => simp
  | cons u ts ih =>
    intro hok t ht
    by_cases h : env.tableDumpOk u
    · simp only [scriptTableDumps, if_pos h] at hok ⊢
      rcases List.mem_cons.mp ht with rfl | ht
      · exact List.mem_cons_self _ _
      · exact List.mem_cons_of_mem _ (ih hok t ht)
    · simp [scriptTableDumps, h] at hok

/-- When the backup phase reports success, every gate inside it passed
and its trace records a successful dump for every table. -/
theorem backupPhase_ok (env : Env) (hb : (backupPhase env).2 = true) :
    env.sshOk = true ∧ env.fullDumpOk = true
    ∧ (scriptTableDumps env TABLES).2 = true ∧ env.zipOk = true
    ∧ ∀ t ∈ TABLES, Ev.remoteDump (Scope.table t) true ∈ (backupPhase env).1 := by
  by_cases hs : env.sshOk = false
  · simp [backupPhase, hs] at hb
  · have hrun : (backupPhase env).2 = (runRemoteScript env).2 := by
      simp [backupPhase, hs]
    rw [hrun] at hb
    by_cases hf : env.fullDumpOk = false
    · simp [runRemoteScript, hf] at hb
    · by_cases hp : (scriptTableDumps env TABLES).2 = false
      · simp [runRemoteScript, hf, hp] at hb
      · have hz : env.zipOk = true := by
          have : (runRemoteScript env).2 = env.zipOk := by
            simp [runRemoteScript, hf, hp]
          rw [this] at hb
          exact hb
        have hshape : (backupPhase env).1
            = (runRemoteScript env).1 ++ [Ev.scriptRun (runRemoteScript env).2] := by
          simp [backupPhase, hs]
        have hrshape : (runRemoteScript env).1
            = Ev.remoteDump Scope.full true
                :: (scriptTableDumps env TABLES).1 ++ [Ev.remoteZip env.zipOk] := by
          simp [runRemoteScript, hf, hp]
        refine ⟨by simpa using hs, by simpa using hf, by simpa using hp, hz, ?_⟩
        intro t ht
        have hmem := scriptTableDumps_ok_mem env TABLES (by simpa using hp) t ht
        rw [hshape, hrshape]
        simp [List.mem_append, hmem]

theorem purgeEvents_mem (env : Env) (u : String) :
    ∀ ts : List String, Ev.purgeTable u ∈ purgeEvents env ts ↔ u ∈ ts := by
  intro ts
  induction ts with
  | nil => simp [purgeEvents]
  | cons t ts ih =>
    by_cases h : env.purgeOk t <;> simp [purgeEvents, h, ih]

theorem purgePhase_mem (env : Env) (u : String) :
    Ev.purgeTable u ∈ purgePhase env ↔ env.dbConnectOk = true ∧ u ∈ TABLES := by
  by_cases h : env.dbConnectOk <;> simp [purgePhase, h, purgeEvents_mem]

/-! ## Concrete runs used as witnesses and counterexamples -/

/-- A run in which every external effect succeeds. -/
def envAllOk : Env :=
  { putOk := true, sshOk := true, fullDumpOk := true, tableDumpOk := fun _ => true
  , zipOk := true, pullOk := true, pulledSize := 4096, dbConnectOk := true
  , purgeOk := fun _ => true, cleanupOk := true }

/-- A run in which the dump of the first table fails and everything else
would succeed. -/
def envDumpAFails : Env :=
  { putOk := true, sshOk := true, fullDumpOk := true
  , tableDumpOk := fun t => !(t == "ismart_create_order")
  , zipOk := true, pullOk := true, pulledSize := 4096, dbConnectOk := true
  , purgeOk := fun _ => true, cleanupOk := true }

/-- A run in which the purge of the first table fails and everything else
succeeds. -/
def envPurgeAFails : Env :=
  { putOk := true, sshOk := true, fullDumpOk := true, tableDumpOk := fun _ => true
  , zipOk := true, pullOk := true, pulledSize := 4096, dbConnectOk := true
  , purgeOk := fun t => !(t == "ismart_create_order"), cleanupOk := true }

/-- A run in which the remote dump succeeds but the pull of the archive
fails. -/
def envPullFails : Env :=
  { putOk := true, sshOk := true, fullDumpOk := true, tableDumpOk := fun _ => true
  , zipOk := true, pullOk := false, pulledSize := 0, dbConnectOk := true
  , purgeOk := fun _ => true, cleanupOk := true }

/-- A run in which the pull succeeds but produces an empty local file. -/
def envEmptyPull : Env :=
  { putOk := true, sshOk := true, fullDumpOk := true, tableDumpOk := fun _ => true
  , zipOk := true, pullOk := true, pulledSize := 0, dbConnectOk := true
  , purgeOk := fun _ => true, cleanupOk := true }

/-- A run in which the database connection for the purge phase fails. -/
def envDbDown : Env :=
  { putOk := true, sshOk := true, fullDumpOk := true, tableDumpOk := fun _ => true
  , zipOk := true, pullOk := true, pulledSize := 4096, dbConnectOk := false
  , purgeOk := fun _ => true, cleanupOk := true }

/-! ## C1: purge is gated on the partition's own artifact and the pull -/

/-- C1: whenever a run purges a table, the trace splits into a prefix and
a suffix such that the prefix already contains a successful dump of that
very table and the successful pull of the archive (the local-copy
confirmation), and the purge lies in the suffix: no delete against a
table's rows happens unless that table's own artifact step and the
local-copy transfer both reported success earlier in the same run. -/
theorem purge_gated_on_own_artifact (env : Env) (t : String)
    (h : Ev.purgeTable t ∈ mainRun env) :
    ∃ pre post, mainRun env = pre ++ post
      ∧ Ev.remoteDump (Scope.table t) true ∈ pre
      ∧ Ev.pullZip true ∈ pre
      ∧ Ev.purgeTable t ∈ post := by
  by_cases hput : env.putOk = false
  · have hm : mainRun env = [Ev.putScript false] := by simp [mainRun, hput]
    rw [hm] at h
    simp at h
  by_cases hb : (backupPhase env).2 = false
  · have hm : mainRun env = Ev.putScript true :: (backupPhase env).1 := by
      simp [mainRun, hput, hb]
    rw [hm] at h
    rcases List.mem_cons.mp h with heq | hmem
    · simp at heq
    · have := backupPhase_preEv env _ hmem
      simp [preEv] at this
  by_cases hpull : env.pullOk = false
  · have hm : mainRun env
        = Ev.putScript true :: (backupPhase env).1 ++ [Ev.pullZip false] := by
      simp [mainRun, hput, hb, hpull]
    rw [hm] at h
    rcases List.mem_cons.mp h with heq | hmem
    · simp at heq
    rcases List.mem_append.mp hmem with h1 | h2
    · have := backupPhase_preEv env _ h1
      simp [preEv] at this
    · simp at h2
  have hm : mainRun env
      = (Ev.putScript true :: (backupPhase env).1 ++ [Ev.pullZip true])
        ++ (purgePhase env ++ [Ev.cleanupRun env.cleanupOk]) := by
    simp [mainRun, hput, hb, hpull]
  have hpost : Ev.purgeTable t ∈ purgePhase env ++ [Ev.cleanupRun env.cleanupOk] := by
    rw [hm] at h
    rcases List.mem_append.mp h with hpre | hpost
    · exfalso
      rcases List.mem_cons.mp hpre with heq | hpre2
      · simp at heq
      rcases List.mem_append.mp hpre2 with h1 | h2
      · have := backupPhase_preEv env _ h1
        simp [preEv] at this
      · simp at h2
    · exact hpost
  have ht : t ∈ TABLES := by
    rcases List.mem_append.mp hpost with h1 | h2
    · exact ((purgePhase_mem env t).mp h1).2
    · simp at h2
  obtain ⟨_, _, _, _, hdumps⟩ := backupPhase_ok env (by simpa using hb)
  refine ⟨_, _, hm, ?_, ?_, hpost⟩
  · exact List.mem_cons_of_mem _ (List.mem_append_left _ (hdumps t ht))
  · exact List.mem_cons_of_mem _ (List.mem_append_right _ (List.mem_singleton.mpr rfl))

/-- Witness for C1: in the all-success run, `user_details` is purged, and
the trace decomposes with that table's successful dump and the successful
pull strictly before the purge. -/
theorem purge_gated_on_own_artifact_witness :
    Ev.purgeTable "user_details" ∈ mainRun envAllOk
    ∧ ∃ pre post, mainRun envAllOk = pre ++ post
        ∧ Ev.remoteDump (Scope.table "user_details") true ∈ pre
        ∧ Ev.pullZip true ∈ pre
        ∧ Ev.purgeTable "user_details" ∈ post :=
  ⟨by decide, purge_gated_on_own_artifact envAllOk "user_details" (by decide)⟩

/-! ## C2: what partition isolation the code actually has -/

/-- C2 counterexample: when the dump of `ismart_create_order` fails, the
whole `set -e` script fails, so partition B (`user_details`) is not
purged and the dump of the very next table
(`customer_input_details`) is never even attempted — partition failures
are not isolated at the artifact stage. -/
theorem partition_failure_not_isolated :
    Ev.purgeTable "user_details" ∉ mainRun envDumpAFails
    ∧ Ev.remoteDump (Scope.table "customer_input_details") true ∉ mainRun envDumpAFails := by
  constructor <;> decide

/-- C2 amended: isolation holds only in the purge phase, not in the
artifact phase. First part: a failed dump for any listed table makes the
whole remote script fail, so no table at all is purged in that run.
Second part: once the backup and pull gates have passed, every listed
table's purge is invoked regardless of which purges fail — a purge
failure for one table does not prevent the purge of the others. -/
theorem partition_isolation_amended :
    (∀ (env : Env) (t : String), t ∈ TABLES → env.tableDumpOk t = false →
        ∀ u : String, Ev.purgeTable u ∉ mainRun env)
    ∧ ∀ (env : Env) (u : String), env.putOk = true → (backupPhase env).2 = true →
        env.pullOk = true → env.dbConnectOk = true → u ∈ TABLES →
        Ev.purgeTable u ∈ mainRun env := by
  constructor
  · intro env t ht hfail u hmem
    have hnall : ¬∀ s ∈ TABLES, env.tableDumpOk s = true := by
      intro hall
      have := hall t ht
      rw [hfail] at this
      exact Bool.false_ne_true this
    have hdumps : (scriptTableDumps env TABLES).2 = false := by
      cases hd : (scriptTableDumps env TABLES).2
      · rfl
      · exact absurd ((scriptTableDumps_ok_iff env TABLES).mp hd) hnall
    have hb : (backupPhase env).2 = false := by
      by_cases hs : env.sshOk = false
      · simp [backupPhase, hs]
      · by_cases hf : env.fullDumpOk = false
        · simp [backupPhase, runRemoteScript, hs, hf]
        · simp [backupPhase, runRemoteScript, hs, hf, hdumps]
    by_cases hput : env.putOk = false
    · have hm : mainRun env = [Ev.putScript false] := by simp [mainRun, hput]
      rw [hm] at hmem
      simp at hmem
    · have hm : mainRun env = Ev.putScript true :: (backupPhase env).1 := by
        simp [mainRun, hput, hb]
      rw [hm] at hmem
      rcases List.mem_cons.mp hmem with heq | hmem2
      · simp at heq
      · have := backupPhase_preEv env _ hmem2
        simp [preEv] at this
  · intro env u hput hb hpull hdb hu
    have hm : mainRun env
        = (Ev.putScript true :: (backupPhase env).1 ++ [Ev.pullZip true])
          ++ (purgePhase env ++ [Ev.cleanupRun env.cleanupOk]) := by
      simp [mainRun, hput, hb, hpull]
    rw [hm]
    refine List.mem_append_right _ (List.mem_append_left _ ?_)
    exact (purgePhase_mem env u).mpr ⟨hdb, hu⟩

/-- Witness for the amended C2: with the first table's dump failing, no
table (here `user_details`) is purged; with every gate passing but the
first table's purge failing, `user_details` is still purged. -/
theorem partition_isolation_amended_witness :
    Ev.purgeTable "user_details" ∉ mainRun envDumpAFails
    ∧ Ev.purgeTable "user_details" ∈ mainRun envPurgeAFails :=
  ⟨partition_isolation_amended.1 envDumpAFails "ismart_create_order" (by decide)
      (by decide) "user_details",
   partition_isolation_amended.2 envPurgeAFails "user_details" rfl (by decide) rfl rfl
      (by decide)⟩

/-! ## C5: a failed pull blocks both purge and remote cleanup -/

/-- C5: if the remote-to-local transfer of the archive fails, the run
performs no purge of any table and never attempts the remote cleanup
command — whatever the outcome of the remote dump itself was. -/
theorem pull_failure_blocks_purge_and_cleanup (env : Env) (h : env.pullOk = false) :
    (∀ t : String, Ev.purgeTable t ∉ mainRun env)
    ∧ ∀ b : Bool, Ev.cleanupRun b ∉ mainRun env := by
  by_cases hput : env.putOk = false
  · have hm : mainRun env = [Ev.putScript false] := by simp [mainRun, hput]
    rw [hm]
    constructor
    · intro t hmem; simp at hmem
    · intro b hmem; simp at hmem
  by_cases hb : (backupPhase env).2 = false
  · have hm : mainRun env = Ev.putScript true :: (backupPhase env).1 := by
      simp [mainRun, hput, hb]
    rw [hm]
    constructor
    · intro t hmem
      rcases List.mem_cons.mp hmem with heq | hmem2
      · simp at heq
      · have := backupPhase_preEv env _ hmem2
        simp [preEv] at this
    · intro b hmem
      rcases List.mem_cons.mp hmem with heq | hmem2
      · simp at heq
      · have := backupPhase_preEv env _ hmem2
        simp [preEv] at this
  · have hm : mainRun env
        = Ev.putScript true :: (backupPhase env).1 ++ [Ev.pullZip false] := by
      simp [mainRun, hput, hb, h]
    rw [hm]
    constructor
    · intro t hmem
      rcases List.mem_cons.mp hmem with heq | hmem2
      · simp at heq
      rcases List.mem_append.mp hmem2 with h1 | h2
      · have := backupPhase_preEv env _ h1
        simp [preEv] at this
      · simp at h2
    · intro b hmem
      rcases List.mem_cons.mp hmem with heq | hmem2
      · simp at heq
      rcases List.mem_append.mp hmem2 with h1 | h2
      · have := backupPhase_preEv env _ h1
        simp [preEv] at this
      · simp at h2

/-- Witness for C5: in a run whose remote dump fully succeeded but whose
pull failed, `user_details` is not purged and no cleanup is attempted. -/
theorem pull_failure_blocks_witness :
    Ev.purgeTable "user_details" ∉ mainRun envPullFails
    ∧ Ev.cleanupRun true ∉ mainRun envPullFails :=
  ⟨(pull_failure_blocks_purge_and_cleanup envPullFails rfl).1 "user_details",
   (pull_failure_blocks_purge_and_cleanup envPullFails rfl).2 true⟩

/-! ## C6: the pulled file's size is never checked -/

/-- C6 counterexample: in a run where the transfer returns success but
the resulting local file is empty (size 0), the purge phase runs anyway:
`user_details` is purged. The code advances on `sftp.get` returning
without an exception and never inspects the pulled file. -/
theorem empty_pull_still_purges :
    envEmptyPull.pulledSize = 0
    ∧ Ev.purgeTable "user_details" ∈ mainRun envEmptyPull :=
  ⟨rfl, by decide⟩

/-- `main` with the pulled file's size replaced. -/
def setPulledSize (env : Env) (n : Nat) : Env :=
  { env with pulledSize := n }

/-- C6 amended: the run advances to the purge phase exactly when the
transfer returns success; the size of the resulting local file is never
consulted, so the whole run trace is unchanged under any pulled-file
size — an empty pulled file confirms the local copy just like a
non-empty one. -/
theorem pulled_size_never_consulted (env : Env) (n : Nat) :
    mainRun (setPulledSize env n) = mainRun env := rfl

/-! ## C10: remote cleanup is attempted whenever the pull succeeded -/

/-- C10: once the script upload, the remote backup script, and the
archive pull have all succeeded, the remote cleanup command is attempted
in every run — the theorem places no condition on the database
connection or on any table's purge outcome, so a total purge failure
(for example a failed database connection) does not prevent the removal
of the remote dump directory, archive and script. -/
theorem cleanup_attempted_after_pull (env : Env) (hput : env.putOk = true)
    (hb : (backupPhase env).2 = true) (hpull : env.pullOk = true) :
    Ev.cleanupRun env.cleanupOk ∈ mainRun env := by
  have hm : mainRun env
      = (Ev.putScript true :: (backupPhase env).1 ++ [Ev.pullZip true])
        ++ (purgePhase env ++ [Ev.cleanupRun env.cleanupOk]) := by
    simp [mainRun, hput, hb, hpull]
  rw [hm]
  refine List.mem_append_right _ (List.mem_append_right _ ?_)
  exact List.mem_singleton.mpr rfl

/-- Witness for C10: in a run where the database connection for the
purge phase fails (so not a single row is purged), the remote cleanup is
still attempted. -/
theorem cleanup_attempted_after_pull_witness :
    Ev.cleanupRun true ∈ mainRun envDbDown :=
  cleanup_attempted_after_pull envDbDown rfl (by decide) rfl
